import Mathlib

/-!
Shallow embedding of the boundary-enforcement predicates of hostinger/restic:
the restore-time node filter SymlinkScopeNodeFilter and the backup-time
rejection predicate RejectSymlinksOutsideScope from hostinger/restorer_filter.go,
together with the slash-path primitives of Go's path/filepath package that they
use (Clean, Join, Dir, Base, IsAbs) and strings.HasPrefix.  Filesystem effects
(fs.Lstat and filepath.EvalSymlinks) are modelled as oracle functions passed to
the embedded predicates.
-/

namespace Restic

/-- Character-list prefix test: listPfx pre l is true when pre is an initial
segment of l.  This is the character-level content of Go strings.HasPrefix. -/
def listPfx : List Char → List Char → Bool
  | [], _ => true
  | _ :: _, [] => false
  | a :: as, b :: bs => if a = b then listPfx as bs else false

/-- Go strings.HasPrefix s pre: true when the string s starts with pre. -/
def hasPfx (s pre : String) : Bool := listPfx pre.data s.data

/-- Split the characters of a path at slashes, dropping empty components.
Accumulator holds the current component reversed. -/
def splitAux : List Char → List Char → List String
  | [], acc => if acc.isEmpty then [] else [String.mk acc.reverse]
  | c :: cs, acc =>
    if c = '/' then
      if acc.isEmpty then splitAux cs [] else String.mk acc.reverse :: splitAux cs []
    else splitAux cs (c :: acc)

/-- The nonempty slash-separated components of a path. -/
def splitComps (p : String) : List String := splitAux p.data []

/-- Stack-based normalization implementing the component rules of Go
filepath.Clean: drop a dot element, drop a dotdot element together with the
non-dotdot element preceding it, drop a dotdot element at the start of a rooted
path, and keep leading dotdot elements of a relative path.  The accumulator is
the output stack, most recent component first. -/
def cleanAux (rooted : Bool) : List String → List String → List String
  | acc, [] => acc.reverse
  | acc, c :: cs =>
    if c = "." then cleanAux rooted acc cs
    else if c = ".." then
      match acc with
      | [] => if rooted then cleanAux rooted [] cs else cleanAux rooted [".."] cs
      | top :: rest =>
        if top = ".." then cleanAux rooted (".." :: top :: rest) cs
        else cleanAux rooted rest cs
    else cleanAux rooted (c :: acc) cs

/-- Join components with single slashes. -/
def sepJoin : List String → String
  | [] => ""
  | [c] => c
  | c :: cs => c ++ "/" ++ sepJoin cs

/-- Go filepath.IsAbs on slash paths: the path starts with a slash. -/
def isAbs (p : String) : Bool := hasPfx p "/"

/-- Go filepath.Clean on slash paths: collapse repeated slashes, resolve dot
and dotdot elements lexically, return dot for an empty result. -/
def clean (p : String) : String :=
  let rooted := isAbs p
  let comps := cleanAux rooted [] (splitComps p)
  if rooted then "/" ++ sepJoin comps
  else if comps.isEmpty then "." else sepJoin comps

/-- Go filepath.Join restricted to two elements: skip empty elements, join the
rest with a slash and Clean the result; all-empty input yields the empty
string. -/
def join (a b : String) : String :=
  if a = "" then (if b = "" then "" else clean b) else clean (a ++ "/" ++ b)

/-- The characters of p up to and including its final slash; empty when p
contains no slash. -/
def dirPre (p : String) : List Char :=
  (p.data.reverse.dropWhile (fun c => decide (c ≠ '/'))).reverse

/-- Go filepath.Dir: everything but the last element of the path, Cleaned;
dot when the path contains no slash. -/
def dir (p : String) : String := clean (String.mk (dirPre p))

/-- Go filepath.Base: the last element of the path after dropping trailing
slashes; dot for the empty path, slash for an all-slash path. -/
def base (p : String) : String :=
  if p = "" then "."
  else
    let rest := p.data.reverse.dropWhile (fun c => decide (c = '/'))
    let name := rest.takeWhile (fun c => decide (c ≠ '/'))
    if name.isEmpty then "/" else String.mk name.reverse

/-- Outcome of fs.Lstat as inspected by the restore filter: success, an error
satisfying os.IsNotExist, or any other error. -/
inductive LstatResult
  | ok
  | notExist
  | otherErr
deriving DecidableEq

/-- The node kinds of restic.Node that matter to the filter; the filter only
distinguishes symlink nodes from all others. -/
inductive NodeType
  | symlink
  | regular
  | directory
  | other
deriving DecidableEq

/-- The fields of restic.Node read by the restore filter. -/
structure Node where
  type : NodeType
  linkTarget : String

/-- filepath.EvalSymlinks modelled as an oracle: some resolved path on
success, none on failure. -/
abbrev EvalOracle := String → Option String

/-- fs.Lstat modelled as an oracle over paths. -/
abbrev LstatOracle := String → LstatResult

/-- Bidirectional prefix compatibility of two canonical path strings: one is a
string prefix of the other. -/
def bidirCompat (a b : String) : Bool := hasPfx a b || hasPfx b a

/-- Lines 21 to 35 of SymlinkScopeNodeFilter: unless Lstat of the destination
directory failed with a not-exist error, resolve its symlinks; return none
(reject) when resolution fails, and when the resolved directory differs from
the original and is not prefix-compatible with the scope in either direction;
otherwise return the adopted effective destination directory. -/
def ancestorStep (scope : String) (lstat : LstatOracle) (ev : EvalOracle)
    (dstdir : String) : Option String :=
  match lstat dstdir with
  | LstatResult.notExist => some dstdir
  | _ =>
    match ev dstdir with
    | none => none
    | some e =>
      if e ≠ dstdir ∧ bidirCompat e scope = false then none else some e

/-- Lines 54 to 57 of SymlinkScopeNodeFilter: Clean the recorded link target
and, when the result is still relative, Join it to the destination
directory. -/
def symTarget (dstdir linkTarget : String) : String :=
  let t := clean linkTarget
  if isAbs t then t else join dstdir t

/-- Lines 53 to 69 of SymlinkScopeNodeFilter: the per-node syntactic checks,
evaluated against the effective destination directory.  A symlink node is
allowed when its computed target starts with the scope; any other node is
allowed when Join of the destination directory and the base name of the item
is prefix-compatible with the scope in either direction. -/
def checkNode (scope dstdir item : String) (node : Node) : Bool :=
  match node.type with
  | NodeType.symlink => hasPfx (symTarget dstdir node.linkTarget) scope
  | _ =>
    let target := join dstdir (base item)
    hasPfx target scope || hasPfx scope target

/-- SymlinkScopeNodeFilter from hostinger/restorer_filter.go: the restore-time
node filter; true allows the node, false rejects it. -/
def symlinkScopeNodeFilter (scope : String) (lstat : LstatOracle)
    (ev : EvalOracle) (item : String) (node : Node) : Bool :=
  match ancestorStep scope lstat ev (dir item) with
  | none => false
  | some dstdir => checkNode scope dstdir item node

/-- RejectSymlinksOutsideScope from hostinger/restorer_filter.go: the
backup-time rejection predicate; true excludes the entry.  The scope is the
already-absolute scopePath held by the closure. -/
def rejectSymlinksOutsideScope (scopePath : String) (ev : EvalOracle)
    (path : String) : Bool :=
  match ev path with
  | none => true
  | some target => !(hasPfx target scopePath)

/-- Instrumented RejectSymlinksOutsideScope: the decision paired with the
number of debug.Log diagnostic lines the corresponding code path emits. -/
def rejectInstr (scopePath : String) (ev : EvalOracle) (path : String) :
    Bool × Nat :=
  match ev path with
  | none => (true, 1)
  | some target => if hasPfx target scopePath then (false, 0) else (true, 1)

/-- True exactly on the inputs where SymlinkScopeNodeFilter rejects because
EvalSymlinks of the (not known to be absent) destination directory failed. -/
def evalFailRejection (lstat : LstatOracle) (ev : EvalOracle)
    (item : String) : Bool :=
  match lstat (dir item) with
  | LstatResult.notExist => false
  | _ => (ev (dir item)).isNone

/-- Instrumented SymlinkScopeNodeFilter: the decision paired with the number
of debug.Log diagnostic lines the corresponding code path emits.  The
resolution-failure rejection at line 24 emits no diagnostic; the three other
rejections each emit one. -/
def filterInstr (scope : String) (lstat : LstatOracle) (ev : EvalOracle)
    (item : String) (node : Node) : Bool × Nat :=
  match lstat (dir item) with
  | LstatResult.notExist =>
      (checkNode scope (dir item) item node,
       if checkNode scope (dir item) item node then 0 else 1)
  | _ =>
    match ev (dir item) with
    | none => (false, 0)
    | some e =>
      if e ≠ dir item ∧ bidirCompat e scope = false then (false, 1)
      else
        (checkNode scope e item node,
         if checkNode scope e item node then 0 else 1)

/-- Modelled from the spec: the deviceMap type and its IsAllowed lookup live
in internal/archiver/exclude.go, which is absent from the given sources (only
its test is present).  Per the spec, the lookup finds the longest registered
key that is a string prefix of the queried path and answers allowed exactly
when the queried device id equals the id recorded at that key; none models
the caller-error case of a path below no registered ancestor. -/
def deviceMapIsAllowed (m : List (String × Nat)) (item : String)
    (devID : Nat) : Option Bool :=
  match m.foldl
      (fun best kv =>
        if hasPfx item kv.fst then
          match best with
          | none => some kv
          | some b => if b.fst.length < kv.fst.length then some kv else some b
        else best)
      none with
  | none => none
  | some kv => some (decide (devID = kv.snd))

-- sanity checks of the Clean model against the documented examples
example : clean "/var/test/target/next/.." = "/var/test/target" := by decide
example : clean "./test/target" = "test/target" := by decide
example : clean "./var/../../target" = "../target" := by decide
example : clean "" = "." := by decide
example : clean "/.." = "/" := by decide
example : clean "/restore/test/../target" = "/restore/target" := by decide
example : dir "/s/a/l" = "/s/a" := by decide
example : dir "/s" = "/" := by decide
example : base "/s/a" = "a" := by decide
example : base "/" = "/" := by decide
example : join "/" "s" = "/s" := by decide

-- sanity checks of the guards on concrete inputs
example : symTarget "/s/a" "../b" = "/s/b" := by decide
example : symlinkScopeNodeFilter "/s" (fun _ => LstatResult.notExist)
    (fun _ => none) "/s/a/l" ⟨NodeType.symlink, "../b"⟩ = true := by decide
example : symlinkScopeNodeFilter "/s" (fun _ => LstatResult.notExist)
    (fun _ => none) "/s/a/l" ⟨NodeType.symlink, "../../x"⟩ = false := by decide
example : rejectSymlinksOutsideScope "/foodir" (fun _ => some "/foodir2/x")
    "/foodir2/x" = false := by decide
example : deviceMapIsAllowed [("/", 1), ("/usr/local", 5)]
    "/usr/local/foobar" 5 = some true := by decide
example : deviceMapIsAllowed [("/", 1), ("/usr/local", 5)]
    "/usr/local/foobar/submount" 23 = some false := by decide

/-- A resolved path lies strictly inside a scope root when it extends the
root past a path separator: the root followed by a slash is a string prefix
of the path. -/
def strictlyInside (p root : String) : Bool := hasPfx p (root ++ "/")

theorem listPfx_refl (l : List Char) : listPfx l l = true := by
  induction l with
  | nil => rfl
  | cons a as ih => simp [listPfx, ih]

theorem listPfx_append (l t : List Char) : listPfx l (l ++ t) = true := by
  induction l with
  | nil => rfl
  | cons a as ih => simp [listPfx, ih]

theorem listPfx_trans {a b c : List Char} (h1 : listPfx a b = true)
    (h2 : listPfx b c = true) : listPfx a c = true := by
  induction a generalizing b c with
  | nil => rfl
  | cons x xs ih =>
    cases b with
    | nil => simp [listPfx] at h1
    | cons y ys =>
      cases c with
      | nil => simp [listPfx] at h2
      | cons z zs =>
        simp only [listPfx] at h1 h2 ⊢
        by_cases hxy : x = y
        · subst hxy
          simp only [if_pos rfl] at h1
          by_cases hyz : x = z
          · subst hyz
            simp only [if_pos rfl] at h2 ⊢
            exact ih h1 h2
          · simp [if_neg hyz] at h2
        · simp [if_neg hxy] at h1

theorem hasPfx_refl (s : String) : hasPfx s s = true := listPfx_refl s.data

theorem data_append (a b : String) : (a ++ b).data = a.data ++ b.data := rfl

/-- If root followed by a slash is a string prefix of p, then so is root
itself. -/
theorem hasPfx_of_strictlyInside {p root : String}
    (h : strictlyInside p root = true) : hasPfx p root = true := by
  unfold strictlyInside hasPfx at h
  unfold hasPfx
  rw [data_append] at h
  exact listPfx_trans (listPfx_append root.data ("/").data) h

/-- A string extending an absolute string is absolute. -/
theorem isAbs_of_hasPfx {t s : String} (hp : hasPfx t s = true)
    (ha : isAbs s = true) : isAbs t = true := by
  unfold isAbs hasPfx at ha ⊢
  exact listPfx_trans ha hp

/-- When the ancestor-resolution step yields an effective destination
directory, the filter decision is the per-node syntactic check at that
directory. -/
theorem filter_eq_checkNode {scope : String} {lstat : LstatOracle}
    {ev : EvalOracle} {item : String} {node : Node} {eff : String}
    (h : ancestorStep scope lstat ev (dir item) = some eff) :
    symlinkScopeNodeFilter scope lstat ev item node =
      checkNode scope eff item node := by
  unfold symlinkScopeNodeFilter
  rw [h]

/-- Claim C1 (counterexample): the backup guard does not exclude every
candidate whose resolved form lies outside the scope root.  With scope root
slash-foodir, a candidate resolving to slash-foodir2-slash-x is not strictly
inside the root and differs from it, yet the guard returns false (included). -/
theorem C1_counterexample :
    strictlyInside "/foodir2/x" "/foodir" = false ∧
    "/foodir2/x" ≠ "/foodir" ∧
    rejectSymlinksOutsideScope "/foodir"
      (fun p => if p = "/foodir2/x" then some "/foodir2/x" else none)
      "/foodir2/x" = false := by decide

/-- Claim C1 (amended): for every candidate path whose fully-resolved form
lies strictly inside the scope root, the backup guard returns false
(included); for every candidate whose resolved form does not have the scope
root as a string prefix, it returns true (excluded).  Resolved paths that
extend the scope-root string without a path separator are wrongly included. -/
theorem C1_backup_scope (R : String) (ev : EvalOracle) (P resolved : String)
    (hev : ev P = some resolved) :
    (strictlyInside resolved R = true →
      rejectSymlinksOutsideScope R ev P = false) ∧
    (hasPfx resolved R = false →
      rejectSymlinksOutsideScope R ev P = true) := by
  unfold rejectSymlinksOutsideScope
  rw [hev]
  constructor
  · intro h
    simp [hasPfx_of_strictlyInside h]
  · intro h
    simp [h]

/-- Claim C1 (witness): the amended theorem applied at concrete inputs. -/
theorem C1_witness :
    rejectSymlinksOutsideScope "/s" (fun _ => some "/s/a") "/x" = false ∧
    rejectSymlinksOutsideScope "/s" (fun _ => some "/t/a") "/y" = true :=
  ⟨(C1_backup_scope "/s" (fun _ => some "/s/a") "/x" "/s/a" rfl).1 (by decide),
   (C1_backup_scope "/s" (fun _ => some "/t/a") "/y" "/t/a" rfl).2 (by decide)⟩

/-- Claim C7 (counterexample): the backup guard's containment test is not the
bidirectional prefix compatibility of the data model.  A candidate resolving
to slash-a is prefix-compatible with scope root slash-a-slash-b in the
bidirectional sense, yet the guard returns true (excluded). -/
theorem C7_counterexample :
    bidirCompat "/a" "/a/b" = true ∧
    rejectSymlinksOutsideScope "/a/b" (fun _ => some "/a") "/a" = true := by
  decide

/-- Claim C7 (amended): the backup guard includes a successfully resolved
candidate exactly when the scope root is a string prefix of the resolved path
(one-directional test); a resolved path that is merely a proper prefix of the
scope root is excluded. -/
theorem C7_backup_oneway (R : String) (ev : EvalOracle) (P t : String)
    (hev : ev P = some t) :
    rejectSymlinksOutsideScope R ev P = false ↔ hasPfx t R = true := by
  unfold rejectSymlinksOutsideScope
  rw [hev]
  cases h : hasPfx t R <;> simp [h]

/-- Claim C7 (witness): the amended theorem applied at a concrete input. -/
theorem C7_witness :
    rejectSymlinksOutsideScope "/s" (fun _ => some "/s/q") "/z" = false :=
  (C7_backup_oneway "/s" (fun _ => some "/s/q") "/z" "/s/q" rfl).mpr (by decide)

/-- Claim C4: on symlink-resolution failure both guards reject and never
accept or propagate an error: the backup guard returns true (exclude) when
EvalSymlinks of the candidate fails, and the restore filter returns false
(disallow) when EvalSymlinks of an existing destination directory fails. -/
theorem C4_fail_closed (R : String) (ev1 : EvalOracle) (p : String)
    (scope : String) (lstat : LstatOracle) (ev2 : EvalOracle)
    (item : String) (node : Node)
    (h1 : ev1 p = none) (h2 : lstat (dir item) = LstatResult.ok)
    (h3 : ev2 (dir item) = none) :
    rejectSymlinksOutsideScope R ev1 p = true ∧
    symlinkScopeNodeFilter scope lstat ev2 item node = false := by
  constructor
  · unfold rejectSymlinksOutsideScope
    rw [h1]
  · simp [symlinkScopeNodeFilter, ancestorStep, h2, h3]

/-- Claim C4 (witness): the theorem applied at concrete inputs. -/
theorem C4_witness :
    rejectSymlinksOutsideScope "/s" (fun _ => none) "/s/x" = true ∧
    symlinkScopeNodeFilter "/s" (fun _ => LstatResult.ok) (fun _ => none)
      "/s/x" ⟨NodeType.regular, ""⟩ = false :=
  C4_fail_closed "/s" (fun _ => none) "/s/x" "/s" (fun _ => LstatResult.ok)
    (fun _ => none) "/s/x" ⟨NodeType.regular, ""⟩ rfl rfl rfl

/-- Claim C6: on the registry mapping the root directory to device 1 and
slash-usr-local to device 5, the spec-modelled longest-prefix lookup gives
the four documented answers. -/
theorem C6_device_map :
    deviceMapIsAllowed [("/", 1), ("/usr/local", 5)]
      "/usr/local/foobar" 5 = some true ∧
    deviceMapIsAllowed [("/", 1), ("/usr/local", 5)]
      "/usr/local/foobar/submount" 23 = some false ∧
    deviceMapIsAllowed [("/", 1), ("/usr/local", 5)]
      "/usr" 3 = some false ∧
    deviceMapIsAllowed [("/", 1), ("/usr/local", 5)]
      "/root" 1 = some true := by decide

/-- Claim C8: the false-contained input class of raw string-prefix
containment.  With scope root slash-foodir, a candidate resolving to
slash-foodir2-slash-x (extending the scope string without a separator) is not
strictly inside the scope yet is included by the backup guard, and a symlink
node with that target is allowed by the restore filter. -/
theorem C8_false_contained_class :
    strictlyInside "/foodir2/x" "/foodir" = false ∧
    rejectSymlinksOutsideScope "/foodir" (fun _ => some "/foodir2/x")
      "/foodir2/x" = false ∧
    symlinkScopeNodeFilter "/foodir" (fun _ => LstatResult.notExist)
      (fun _ => none) "/foodir2/x" ⟨NodeType.symlink, "/foodir2/x"⟩ = true := by
  decide

/-- Claim C2: for a symlink node reaching the per-node check with effective
destination directory eff under an absolute scope, the restore filter allows
the node exactly when its link target — Cleaned and, when still relative,
Joined to eff — is an absolute path that starts with the scope string. -/
theorem C2_restore_symlink (scope : String) (lstat : LstatOracle)
    (ev : EvalOracle) (item : String) (node : Node) (eff : String)
    (hanc : ancestorStep scope lstat ev (dir item) = some eff)
    (hsym : node.type = NodeType.symlink) (habs : isAbs scope = true) :
    symlinkScopeNodeFilter scope lstat ev item node = true ↔
      (isAbs (symTarget eff node.linkTarget) = true ∧
       hasPfx (symTarget eff node.linkTarget) scope = true) := by
  rw [filter_eq_checkNode hanc]
  unfold checkNode
  rw [hsym]
  constructor
  · intro h
    exact ⟨isAbs_of_hasPfx h habs, h⟩
  · intro h
    exact h.2

/-- Claim C2 (witness): the theorem applied at a concrete input; a relative
dotdot target landing back inside scope is allowed. -/
theorem C2_witness :
    symlinkScopeNodeFilter "/s" (fun _ => LstatResult.notExist)
      (fun _ => none) "/s/a/l" ⟨NodeType.symlink, "../b"⟩ = true :=
  (C2_restore_symlink "/s" (fun _ => LstatResult.notExist) (fun _ => none)
      "/s/a/l" ⟨NodeType.symlink, "../b"⟩ "/s/a" (by decide) rfl
      (by decide)).mpr (by decide)

/-- Claim C3: when the destination directory of the item exists and its
symlink resolution yields a different path, the restore filter rejects every
node if the resolved directory is not prefix-compatible with the scope, and
otherwise the resolved directory is adopted as the effective destination of
the remaining checks. -/
theorem C3_ancestor_resolution (scope : String) (lstat : LstatOracle)
    (ev : EvalOracle) (item : String) (node : Node) (e : String)
    (hok : lstat (dir item) = LstatResult.ok)
    (hev : ev (dir item) = some e) (hne : e ≠ dir item) :
    (bidirCompat e scope = false →
      symlinkScopeNodeFilter scope lstat ev item node = false) ∧
    (bidirCompat e scope = true →
      ancestorStep scope lstat ev (dir item) = some e) := by
  constructor
  · intro hc
    simp [symlinkScopeNodeFilter, ancestorStep, hok, hev, hne, hc]
  · intro hc
    simp [ancestorStep, hok, hev, hc]

/-- Claim C3 (witness): the theorem applied at a concrete input; a destination
directory resolving to a disjoint location causes rejection. -/
theorem C3_witness :
    symlinkScopeNodeFilter "/s" (fun _ => LstatResult.ok) (fun _ => some "/t")
      "/s/a" ⟨NodeType.regular, ""⟩ = false :=
  (C3_ancestor_resolution "/s" (fun _ => LstatResult.ok) (fun _ => some "/t")
    "/s/a" ⟨NodeType.regular, ""⟩ "/t" rfl rfl (by decide)).1 (by decide)

/-- Claim C5: for a non-symlink node reaching the per-node check with
effective destination directory eff, the restore filter allows the node
exactly when Join of eff and the base name of the item is bidirectionally
prefix-compatible with the scope; in particular a target lexically equal to
the scope is allowed. -/
theorem C5_restore_nonsymlink (scope : String) (lstat : LstatOracle)
    (ev : EvalOracle) (item : String) (node : Node) (eff : String)
    (hanc : ancestorStep scope lstat ev (dir item) = some eff)
    (hns : node.type ≠ NodeType.symlink) :
    (symlinkScopeNodeFilter scope lstat ev item node = true ↔
      bidirCompat (join eff (base item)) scope = true) ∧
    (join eff (base item) = scope →
      symlinkScopeNodeFilter scope lstat ev item node = true) := by
  rw [filter_eq_checkNode hanc]
  have hck : checkNode scope eff item node =
      (hasPfx (join eff (base item)) scope ||
       hasPfx scope (join eff (base item))) := by
    unfold checkNode
    cases node with
    | mk t lt =>
      cases t with
      | symlink => exact absurd rfl hns
      | regular => rfl
      | directory => rfl
      | other => rfl
  rw [hck]
  constructor
  · exact Iff.rfl
  · intro hj
    rw [hj, hasPfx_refl]
    rfl

/-- Claim C5 (witness): the theorem applied at a concrete input; restoring
the scope directory itself (target equal to the scope) is allowed. -/
theorem C5_witness :
    symlinkScopeNodeFilter "/s" (fun _ => LstatResult.notExist)
      (fun _ => none) "/s" ⟨NodeType.directory, ""⟩ = true :=
  (C5_restore_nonsymlink "/s" (fun _ => LstatResult.notExist) (fun _ => none)
    "/s" ⟨NodeType.directory, ""⟩ "/" (by decide) (by decide)).2 (by decide)

/-- Claim C10: when Lstat of the item's parent directory fails with a
not-exist error, the ancestor-resolution step is skipped: the filter decision
equals the syntactic per-node check against the unresolved parent path, and
in particular does not depend on the EvalSymlinks oracle at all. -/
theorem C10_absent_parent_syntactic (scope : String) (lstat : LstatOracle)
    (ev ev2 : EvalOracle) (item : String) (node : Node)
    (h : lstat (dir item) = LstatResult.notExist) :
    symlinkScopeNodeFilter scope lstat ev item node =
      checkNode scope (dir item) item node ∧
    symlinkScopeNodeFilter scope lstat ev item node =
      symlinkScopeNodeFilter scope lstat ev2 item node := by
  have h1 : ∀ e : EvalOracle,
      ancestorStep scope lstat e (dir item) = some (dir item) := by
    intro e
    unfold ancestorStep
    rw [h]
  exact ⟨filter_eq_checkNode (h1 ev),
    by rw [filter_eq_checkNode (h1 ev), filter_eq_checkNode (h1 ev2)]⟩

/-- Claim C10 (witness): the theorem applied at a concrete input. -/
theorem C10_witness :
    symlinkScopeNodeFilter "/s" (fun _ => LstatResult.notExist)
      (fun _ => none) "/s/f" ⟨NodeType.regular, ""⟩ =
      checkNode "/s" (dir "/s/f") "/s/f" ⟨NodeType.regular, ""⟩ :=
  (C10_absent_parent_syntactic "/s" (fun _ => LstatResult.notExist)
    (fun _ => none) (fun _ => some "/x") "/s/f" ⟨NodeType.regular, ""⟩ rfl).1

theorem rejectInstr_fst (R : String) (ev : EvalOracle) (p : String) :
    (rejectInstr R ev p).fst = rejectSymlinksOutsideScope R ev p := by
  unfold rejectInstr rejectSymlinksOutsideScope
  cases h : ev p with
  | none => rfl
  | some t => cases ht : hasPfx t R <;> simp [ht]

theorem rejectInstr_snd (R : String) (ev : EvalOracle) (p : String) :
    (rejectInstr R ev p).snd =
      (if (rejectInstr R ev p).fst then 1 else 0) := by
  unfold rejectInstr
  cases h : ev p with
  | none => rfl
  | some t => cases ht : hasPfx t R <;> simp [ht]

theorem filterInstr_fst (scope : String) (lstat : LstatOracle)
    (ev : EvalOracle) (item : String) (node : Node) :
    (filterInstr scope lstat ev item node).fst =
      symlinkScopeNodeFilter scope lstat ev item node := by
  unfold filterInstr symlinkScopeNodeFilter ancestorStep
  cases hl : lstat (dir item) with
  | notExist => rfl
  | ok =>
    cases he : ev (dir item) with
    | none => rfl
    | some e =>
      by_cases hc : e ≠ dir item ∧ bidirCompat e scope = false <;> simp [hc]
  | otherErr =>
    cases he : ev (dir item) with
    | none => rfl
    | some e =>
      by_cases hc : e ≠ dir item ∧ bidirCompat e scope = false <;> simp [hc]

theorem filterInstr_snd (scope : String) (lstat : LstatOracle)
    (ev : EvalOracle) (item : String) (node : Node) :
    (filterInstr scope lstat ev item node).snd =
      (if evalFailRejection lstat ev item then 0
       else if (filterInstr scope lstat ev item node).fst then 0 else 1) := by
  unfold filterInstr evalFailRejection
  cases hl : lstat (dir item) with
  | notExist =>
    cases hcn : checkNode scope (dir item) item node <;> simp [hcn]
  | ok =>
    cases he : ev (dir item) with
    | none => rfl
    | some e =>
      by_cases hc : e ≠ dir item ∧ bidirCompat e scope = false
      · simp [hc]
      · cases hcn : checkNode scope e item node <;> simp [hc, hcn]
  | otherErr =>
    cases he : ev (dir item) with
    | none => rfl
    | some e =>
      by_cases hc : e ≠ dir item ∧ bidirCompat e scope = false
      · simp [hc]
      · cases hcn : checkNode scope e item node <;> simp [hc, hcn]

/-- Claim C9 (counterexample): a rejection path of the restore filter emits no
diagnostic.  When the destination directory exists but its symlink resolution
fails, the filter rejects (first component false) while emitting zero
diagnostic lines (second component zero). -/
theorem C9_counterexample :
    filterInstr "/s" (fun _ => LstatResult.ok) (fun _ => none) "/s/a"
      ⟨NodeType.regular, ""⟩ = (false, 0) := by decide

/-- Claim C9 (amended): the instrumented guards agree with the plain guards
on every decision; the backup guard emits exactly one diagnostic on every
rejection and none on acceptance; the restore filter emits none on
acceptance and exactly one on every rejection except the rejection caused by
symlink-resolution failure of the destination directory, which emits none. -/
theorem C9_diagnostics (R : String) (ev1 : EvalOracle) (p : String)
    (scope : String) (lstat : LstatOracle) (ev2 : EvalOracle)
    (item : String) (node : Node) :
    (rejectInstr R ev1 p).fst = rejectSymlinksOutsideScope R ev1 p ∧
    (rejectInstr R ev1 p).snd =
      (if (rejectInstr R ev1 p).fst then 1 else 0) ∧
    (filterInstr scope lstat ev2 item node).fst =
      symlinkScopeNodeFilter scope lstat ev2 item node ∧
    (filterInstr scope lstat ev2 item node).snd =
      (if evalFailRejection lstat ev2 item then 0
       else if (filterInstr scope lstat ev2 item node).fst then 0 else 1) :=
  ⟨rejectInstr_fst R ev1 p, rejectInstr_snd R ev1 p,
   filterInstr_fst scope lstat ev2 item node,
   filterInstr_snd scope lstat ev2 item node⟩

end Restic
